import Mathlib

/-!
Verification of the water-monitoring-system core: shallow embedding of the
trend-based pump-state inference (`public/sw.js`, `determinePumpStatus`), the
ThingSpeak telemetry client (`src/services/thingspeakService.ts`) and the
usage aggregation engine (`src/services/usageService.ts`), together with
theorems settling the behavioural claims about them.

JavaScript numbers are modelled as `ℚ`; where `NaN` can arise (parsing a
non-numeric string with `parseFloat`) the value is `Option ℚ`, with `none`
playing the role of `NaN`, which the modelled `Math.min`/`Math.max` propagate
exactly as JavaScript does.
-/

namespace WaterMonitor

/-! ### JavaScript numeric and string builtins used by the services -/

/-- Models `Math.round` on a (non-`NaN`) JavaScript number: half-up rounding
towards positive infinity, `Math.round x = ⌊x + 0.5⌋`. -/
def jsRound (x : ℚ) : ℤ := (x + 1/2).floor

/-- Models `Math.min` on possibly-`NaN` numbers: `NaN` (here `none`)
propagates. -/
def jsMin (a b : Option ℚ) : Option ℚ :=
  match a, b with
  | some x, some y => some (min x y)
  | _, _ => none

/-- Models `Math.max` on possibly-`NaN` numbers: `NaN` (here `none`)
propagates. -/
def jsMax (a b : Option ℚ) : Option ℚ :=
  match a, b with
  | some x, some y => some (max x y)
  | _, _ => none

/-- Numeric value of a run of decimal digit characters. -/
def digitsVal (cs : List Char) : ℕ :=
  cs.foldl (fun a c => a * 10 + (c.toNat - 48)) 0

/-- Models the JavaScript `parseFloat` builtin on the strings this repository
feeds it: leading whitespace is skipped, then an optional sign and a run of
decimal digits with an optional fractional part are parsed; trailing
characters are ignored; `none` models `NaN` (no numeric prefix at all).
Exponent notation and `Infinity` are not modelled (they never occur in the
sensor payloads). -/
def parseFloat (s : String) : Option ℚ :=
  let cs := s.toList.dropWhile (fun c => c == ' ' || c == '\t' || c == '\n' || c == '\r')
  let isNeg : Bool := cs.head? == some '-'
  let hasSign : Bool := isNeg || cs.head? == some '+'
  let sign : ℚ := if isNeg then -1 else 1
  let cs1 := if hasSign then cs.tail else cs
  let intDigits := cs1.takeWhile Char.isDigit
  let cs2 := cs1.dropWhile Char.isDigit
  let fracDigits := if cs2.head? == some '.' then cs2.tail.takeWhile Char.isDigit else []
  if intDigits.isEmpty && fracDigits.isEmpty then none
  else some (sign * ((digitsVal intDigits : ℚ) + (digitsVal fracDigits : ℚ) / (10 ^ fracDigits.length)))

/-- Models `String.prototype.startsWith` (used for the `YYYY-MM` / `YYYY`
date-key filters of the usage summary). -/
def jsStartsWith (s p : String) : Bool := p.toList.isPrefixOf s.toList

/-- Models JavaScript truthiness of a nullable string field: `null` and the
empty string are falsy. -/
def truthy (o : Option String) : Bool :=
  match o with
  | none => false
  | some s => s ≠ ""

/-- Models `String.prototype.toLowerCase` on the ASCII pump-flag strings. -/
def jsToLower (s : String) : String := String.mk (s.toList.map Char.toLower)

/-! ### Trend Analyzer — `determinePumpStatus` in `public/sw.js` -/

/-- The `"ON" | "OFF"` string union used for the pump state. -/
inductive PumpStatus where
  | ON : PumpStatus
  | OFF : PumpStatus
deriving DecidableEq, Repr

/-- The successive differences `level - previous` accumulated by the
`reduce` in `determinePumpStatus` (index `0` contributes nothing). -/
def succDiffs : List ℚ → List ℚ
  | a :: b :: rest => (b - a) :: succDiffs (b :: rest)
  | _ => []

/-- `determinePumpStatus(currentLevel, levelHistory)` from `public/sw.js`:
fewer than 3 samples gives `OFF`; otherwise the mean successive difference of
the last 5 samples (`levelHistory.slice(-5)`, modelled by
`drop (length - 5)`) decides: `> 0.5` gives `ON`, `< -0.2` gives `OFF`, and
in the flat band the current level decides (`> 60` gives `OFF`, else `ON`). -/
def determinePumpStatus (currentLevel : ℚ) (levelHistory : List ℚ) : PumpStatus :=
  if levelHistory.length < 3 then .OFF
  else
    let recentReadings := levelHistory.drop (levelHistory.length - 5)
    let averageChange := (succDiffs recentReadings).sum / ((recentReadings.length : ℚ) - 1)
    if averageChange > 1/2 then .ON
    else if averageChange < -(1/5) then .OFF
    else if currentLevel > 60 then .OFF else .ON

/-- The transition rule in the specification's own words: with fewer than 3
samples `OFF`; otherwise with `avgDelta` the mean of successive differences
over the last `min 5 (window length)` samples, `ON` when `avgDelta > 0.5`,
`OFF` when `avgDelta < -0.2`, and in the near-flat case `OFF` exactly when
the current level exceeds 60. Stated independently of the source, to be
compared with `determinePumpStatus`. -/
def pumpSpecRule (currentLevel : ℚ) (window : List ℚ) : PumpStatus :=
  if window.length < 3 then .OFF
  else
    let k := min 5 window.length
    let recent := (window.reverse.take k).reverse
    let avgDelta := (succDiffs recent).sum / ((k : ℚ) - 1)
    if avgDelta > 1/2 then .ON
    else if avgDelta < -(1/5) then .OFF
    else if currentLevel > 60 then .OFF else .ON

theorem determinePumpStatus_eq_rule (currentLevel : ℚ) (levelHistory : List ℚ) :
    determinePumpStatus currentLevel levelHistory = pumpSpecRule currentLevel levelHistory := by
  unfold determinePumpStatus pumpSpecRule
  by_cases h : levelHistory.length < 3
  · simp [h]
  · have hrec : (levelHistory.reverse.take (min 5 levelHistory.length)).reverse
        = levelHistory.drop (levelHistory.length - 5) := by
      rw [List.reverse_take]
      rw [List.reverse_reverse, List.length_reverse]
      congr 1
      omega
    have hlen : ((levelHistory.drop (levelHistory.length - 5)).length : ℚ)
        = ((min 5 levelHistory.length : ℕ) : ℚ) := by
      rw [List.length_drop]
      congr 1
      omega
    simp only [h, if_false, hrec, hlen]

/-- C1 (spec §4.2, §8; `public/sw.js` lines 750–775): the inferred pump state
follows the stated rule — `OFF` below 3 samples; otherwise mean successive
difference of the last `min 5 n` samples with thresholds `+0.5` / `-0.2`, the
flat band decided by `current level > 60` — and the four concrete windows
evaluate to `OFF`, `ON`, `OFF`, `ON` respectively. -/
theorem pump_status_rule_and_examples :
    (∀ (currentLevel : ℚ) (levelHistory : List ℚ),
      determinePumpStatus currentLevel levelHistory = pumpSpecRule currentLevel levelHistory)
    ∧ determinePumpStatus 50 [50, 50] = .OFF
    ∧ determinePumpStatus 73 [50, 55, 61, 67, 73] = .ON
    ∧ determinePumpStatus 69 [80, 78, 75, 72, 69] = .OFF
    ∧ determinePumpStatus 45 [50, 501/10, 499/10, 1001/20, 50] = .ON := by
  refine ⟨determinePumpStatus_eq_rule, ?_, ?_, ?_, ?_⟩
  · simp [determinePumpStatus]
  · simp [determinePumpStatus, succDiffs]
    norm_num
  · simp [determinePumpStatus, succDiffs]
    norm_num
  · simp [determinePumpStatus, succDiffs]
    norm_num

/-! ### Telemetry Client — `src/services/thingspeakService.ts` -/

/-- One ThingSpeak feed entry (`ThingSpeakEntry`): `created_at` timestamp and
eight nullable string fields; only `field1`–`field7` are ever read. -/
structure ThingSpeakEntry where
  created_at : String
  field1 : Option String
  field2 : Option String
  field3 : Option String
  field4 : Option String
  field5 : Option String
  field6 : Option String
  field7 : Option String
deriving DecidableEq, Repr

/-- The `WaterLevelData` record produced by the client. Numeric fields are
`Option ℚ`: `none` stands for both `undefined` (field absent) and `NaN`
(field present but non-numeric) — the two are never distinguished by this
code. -/
structure WaterLevelData where
  waterLevel : Option ℚ
  temperature : Option ℚ
  distance : Option ℚ
  tankCapacity : Option ℚ
  pumpStatus : PumpStatus
  batteryLevel : Option ℚ
  wifiSignal : Option ℚ
  timestamp : String
  lastUpdate : String
deriving DecidableEq, Repr

/-- The human-readable recency label derived in `processThingSpeakData` from
`diffMs = now - lastUpdateTime` (milliseconds): "Just now" under a minute,
then minutes / hours / days with `Math.floor` divisions. -/
def lastUpdateLabel (diffMs : ℤ) : String :=
  let diffMins := diffMs.fdiv 60000
  if diffMins < 1 then "Just now"
  else if diffMins < 60 then
    toString diffMins ++ " min" ++ (if diffMins ≠ 1 then "s" else "") ++ " ago"
  else
    let diffHours := diffMins.fdiv 60
    if diffHours < 24 then
      toString diffHours ++ " hour" ++ (if diffHours ≠ 1 then "s" else "") ++ " ago"
    else
      let diffDays := diffHours.fdiv 24
      toString diffDays ++ " day" ++ (if diffDays ≠ 1 then "s" else "") ++ " ago"

/-- `processThingSpeakData(entry, channel)` (the `channel` parameter is never
read by the body and is omitted). `nowMs` is the wall clock and `entryMs` the
`Date`-parse of `entry.created_at`, both supplied by the environment. A falsy
`field1` yields level `0`; a truthy one is parsed with `parseFloat` and
rounded (`none`, i.e. `NaN`, survives the rounding and the clamp, exactly as
in JavaScript). -/
def processThingSpeakData (entry : ThingSpeakEntry) (nowMs entryMs : ℤ) : WaterLevelData :=
  let waterLevel : Option ℚ :=
    if truthy entry.field1 then (parseFloat (entry.field1.getD "")).map (fun q => ((jsRound q : ℤ) : ℚ))
    else some 0
  { waterLevel := jsMax (some 0) (jsMin (some 100) waterLevel)
    temperature := if truthy entry.field2 then parseFloat (entry.field2.getD "") else none
    distance := if truthy entry.field3 then parseFloat (entry.field3.getD "") else none
    tankCapacity := if truthy entry.field4 then parseFloat (entry.field4.getD "") else some 10000
    pumpStatus :=
      if truthy entry.field5 then
        (if jsToLower (entry.field5.getD "") = "on" then PumpStatus.ON else PumpStatus.OFF)
      else PumpStatus.OFF
    batteryLevel := if truthy entry.field6 then parseFloat (entry.field6.getD "") else none
    wifiSignal := if truthy entry.field7 then parseFloat (entry.field7.getD "") else none
    timestamp := entry.created_at
    lastUpdate := lastUpdateLabel (nowMs - entryMs) }

/-- `getFallbackData()`: the zero-level sentinel returned on any failure
path, marked `"Connection Error"`; `nowIso` is `new Date().toISOString()`. -/
def getFallbackData (nowIso : String) : WaterLevelData :=
  { waterLevel := some 0
    temperature := none
    distance := none
    tankCapacity := some 10000
    pumpStatus := .OFF
    batteryLevel := none
    wifiSignal := none
    timestamp := nowIso
    lastUpdate := "Connection Error" }

/-- One `(time, level, temperature?)` point of the historical series. -/
structure HistoricalData where
  time : String
  level : ℚ
  temperature : Option ℚ
deriving DecidableEq, Repr

/-- The service's private cache object: latest reading (TTL 30 s) and
historical series (TTL 5 min), each with its fetch timestamp. -/
structure TSCache where
  data : Option WaterLevelData
  timestamp : ℤ
  historicalData : List HistoricalData
  historyTimestamp : ℤ
deriving DecidableEq, Repr

/-- Outcome of `makeRequest` (all three transport tiers combined): either
every tier threw, or a payload was returned whose `feeds` list may be absent
(`ok none` covers both `!data` and `!data.feeds`). -/
inductive NetOutcome where
  | throws : NetOutcome
  | ok : Option (List ThingSpeakEntry) → NetOutcome
deriving DecidableEq, Repr

/-- The failure outcomes of `makeRequest`: an exception from every transport,
a null payload / null `feeds`, or an empty `feeds` list. -/
def netFails : NetOutcome → Prop
  | .throws => True
  | .ok none => True
  | .ok (some feeds) => feeds = []

instance : DecidablePred netFails := by
  intro net
  cases net with
  | throws => exact .isTrue trivial
  | ok feeds =>
    cases feeds with
    | none => exact .isTrue trivial
    | some l => exact (inferInstance : Decidable (l = []))

/-- The freshness test guarding the network call:
`this.cache.data && now - this.cache.timestamp < this.cacheTimeout`. -/
def cacheFresh (cache : TSCache) (now : ℤ) : Bool :=
  cache.data.isSome && decide (now - cache.timestamp < 30000)

/-- Result of one `getCurrentWaterLevel()` call: the returned reading, the
cache state afterwards, and whether a network request was issued. -/
structure FetchResult where
  reading : WaterLevelData
  cache : TSCache
  networkCalled : Bool
deriving DecidableEq, Repr

/-- The body of `getCurrentWaterLevel` past the cache check: failure outcomes
return `getFallbackData()` leaving the cache untouched; a payload with
entries is processed from its first (newest) entry and cached with
`timestamp := now`. -/
def fetchFromNetwork (cache : TSCache) (now : ℤ) (net : NetOutcome) (nowIso : String)
    (entryMs : ℤ) : FetchResult :=
  match net with
  | .throws => ⟨getFallbackData nowIso, cache, true⟩
  | .ok none => ⟨getFallbackData nowIso, cache, true⟩
  | .ok (some []) => ⟨getFallbackData nowIso, cache, true⟩
  | .ok (some (e :: _)) =>
      let processed := processThingSpeakData e now entryMs
      ⟨processed, { cache with data := some processed, timestamp := now }, true⟩

/-- `getCurrentWaterLevel()` as a state transition: a fresh cached reading is
returned unchanged with no network call; otherwise the network outcome `net`
(supplied by the environment) is handled by `fetchFromNetwork`. -/
def getCurrentWaterLevel (cache : TSCache) (now : ℤ) (net : NetOutcome) (nowIso : String)
    (entryMs : ℤ) : FetchResult :=
  match cache.data with
  | some d => if now - cache.timestamp < 30000 then ⟨d, cache, false⟩
              else fetchFromNetwork cache now net nowIso entryMs
  | none => fetchFromNetwork cache now net nowIso entryMs

/-- The indices visited by the sampling loop
`for (let i = 0; i < data.length; i += step)`: for `step ≥ 1` these are
exactly the multiples of `step` below `data.length`, in order. -/
def strideIndices (n step : ℕ) : List ℕ :=
  (List.range n).filter (fun i => i % step = 0)

/-- `sampleData(data, maxPoints)`: short inputs pass through; otherwise every
`step = floor(length / maxPoints)`-th element is taken and the last element
is appended when the stride missed it. The source's identity test
`sampled[sampled.length-1] !== data[data.length-1]` compares object
references, i.e. positions, so the selection is modelled on indices and the
elements are read off at the end. -/
def sampleData {α : Type} (data : List α) (maxPoints : ℕ) : List α :=
  if data.length ≤ maxPoints then data
  else
    let step := data.length / maxPoints
    let idxs := strideIndices data.length step
    let withLast := if idxs.getLast? = some (data.length - 1) then idxs
                    else idxs ++ [data.length - 1]
    withLast.filterMap (fun i => data.get? i)

/-- The index selection in the specification's own words: stride
`s = floor(N / budget)`, indices `0, s, 2s, …`, with the final index `N - 1`
force-appended when the stride dropped it. Stated independently of the
source, to be compared with `sampleData`. -/
def claimedSampleIndices (n budget : ℕ) : List ℕ :=
  let s := n / budget
  let strided := (List.range ((n + s - 1) / s)).map (fun j => j * s)
  if (n - 1) % s = 0 then strided else strided ++ [n - 1]

/-! ### Usage Aggregator — `src/services/usageService.ts` -/

/-- One per-day record (`WaterUsageData`): daily usage and intake in liters,
24 hourly buckets, pump run time in minutes, efficiency percentage. -/
structure WaterUsageData where
  date : String
  dailyUsage : ℚ
  dailyIntake : ℚ
  hourlyUsage : List ℚ
  pumpRunTime : ℚ
  efficiency : ℚ
deriving DecidableEq, Repr

/-- The aggregator's mutable state: the record list plus the
`localStorage['last_water_level']` scalar (`none` when never written). -/
structure UsageState where
  usageData : List WaterUsageData
  lastLevel : Option ℚ
deriving DecidableEq, Repr

/-- The blank record pushed for a day not seen before: zero volumes, 24 zero
hourly buckets, efficiency 90. -/
def defaultTodayRecord (today : String) : WaterUsageData :=
  { date := today
    dailyUsage := 0
    dailyIntake := 0
    hourlyUsage := List.replicate 24 0
    pumpRunTime := 0
    efficiency := 90 }

/-- The mutation `addUsagePoint` performs on today's record: a level drop
beyond the 0.5 noise threshold is converted to liters, capped at 50 per
update, added to the current hour's bucket, and `dailyUsage` is recomputed as
the bucket sum; a pump-`ON` status accrues the fixed increments
`2 * 0.05` liters of intake and `0.05` minutes of run time; finally
efficiency is recomputed as `min 95 (round (intake / usage * 100))` when
`dailyUsage > 0` and left unchanged otherwise. -/
def processRecord (rec : WaterUsageData) (waterLevel tankCapacity lastLevel : ℚ)
    (pumpOn : Bool) (currentHour : ℕ) : WaterUsageData :=
  let levelDifference := lastLevel - waterLevel
  let rec1 :=
    if levelDifference > 1/2 then
      let volumeUsed := levelDifference / 100 * tankCapacity
      let hourly := rec.hourlyUsage.set currentHour
        (rec.hourlyUsage.getD currentHour 0 + min volumeUsed 50)
      { rec with hourlyUsage := hourly, dailyUsage := hourly.sum }
    else rec
  let rec2 :=
    if pumpOn then
      { rec1 with dailyIntake := rec1.dailyIntake + 2 * (5/100)
                  pumpRunTime := rec1.pumpRunTime + 5/100 }
    else rec1
  if rec2.dailyUsage > 0 then
    { rec2 with efficiency := min 95 ((jsRound (rec2.dailyIntake / rec2.dailyUsage * 100) : ℤ) : ℚ) }
  else rec2

/-- Write-back of the processed record: the source mutates the first record
whose `date` matches, or pushed a blank one to the end beforehand; the net
effect is to replace the first match, or append when there is none. -/
def upsertRecord : List WaterUsageData → WaterUsageData → String → List WaterUsageData
  | [], rec, _ => [rec]
  | d :: ds, rec, today => if d.date = today then rec :: ds else d :: upsertRecord ds rec today

/-- Today's record as the service sees it: the first stored record for
`today`, or the blank record about to be pushed. -/
def todayRecord (s : UsageState) (today : String) : WaterUsageData :=
  (s.usageData.find? (fun d => d.date == today)).getD (defaultTodayRecord today)

/-- `addUsagePoint(waterLevel, tankCapacity, pumpStatus)`. `today` is the
local calendar-date key and `currentHour` the local hour, both supplied by
the environment. The previous level is
`parseFloat(localStorage.getItem('last_water_level') || waterLevel)`, i.e.
the reading itself on first ever call; the reading's level is persisted as
the new last level unconditionally. -/
def addUsagePoint (s : UsageState) (waterLevel tankCapacity : ℚ) (pumpStatus : String)
    (today : String) (currentHour : ℕ) : UsageState :=
  let lastLevel := s.lastLevel.getD waterLevel
  let processed := processRecord (todayRecord s today) waterLevel tankCapacity lastLevel
    (pumpStatus = "ON") currentHour
  { usageData := upsertRecord s.usageData processed today
    lastLevel := some waterLevel }

/-- The summary projected by `getUsageSummary()`, flattened: every field is
the `Math.round`-ed integer the source returns. -/
structure UsageSummaryR where
  dailyUsage : ℤ
  dailyIntake : ℤ
  dailyNet : ℤ
  dailyEfficiency : ℤ
  monthlyUsage : ℤ
  monthlyIntake : ℤ
  monthlyNet : ℤ
  monthlyEfficiency : ℤ
  monthlyAverageDaily : ℤ
  yearlyUsage : ℤ
  yearlyIntake : ℤ
  yearlyNet : ℤ
  yearlyEfficiency : ℤ
  yearlyAverageDaily : ℤ
  yearlyAverageMonthly : ℤ
deriving DecidableEq, Repr

/-- `getUsageSummary()`: today's record (or a zeroed default), the records of
the current month (`date` starting with `YYYY-MM`) and year (`date` starting
with `YYYY`), summed and averaged as in the source; the period efficiencies
are the plain means of the member records' efficiencies (0 when empty). -/
def getUsageSummary (s : UsageState) (today thisMonth thisYear : String) : UsageSummaryR :=
  let dailyData := (s.usageData.find? (fun d => d.date == today)).getD
    { date := today, dailyUsage := 0, dailyIntake := 0, hourlyUsage := [],
      pumpRunTime := 0, efficiency := 0 }
  let monthlyData := s.usageData.filter (fun d => jsStartsWith d.date thisMonth)
  let monthlyUsage := (monthlyData.map (fun d => d.dailyUsage)).sum
  let monthlyIntake := (monthlyData.map (fun d => d.dailyIntake)).sum
  let monthlyEfficiency : ℚ :=
    if monthlyData.length > 0 then
      (monthlyData.map (fun d => d.efficiency)).sum / (monthlyData.length : ℚ)
    else 0
  let yearlyData := s.usageData.filter (fun d => jsStartsWith d.date thisYear)
  let yearlyUsage := (yearlyData.map (fun d => d.dailyUsage)).sum
  let yearlyIntake := (yearlyData.map (fun d => d.dailyIntake)).sum
  let yearlyEfficiency : ℚ :=
    if yearlyData.length > 0 then
      (yearlyData.map (fun d => d.efficiency)).sum / (yearlyData.length : ℚ)
    else 0
  { dailyUsage := jsRound dailyData.dailyUsage
    dailyIntake := jsRound dailyData.dailyIntake
    dailyNet := jsRound (dailyData.dailyIntake - dailyData.dailyUsage)
    dailyEfficiency := jsRound dailyData.efficiency
    monthlyUsage := jsRound monthlyUsage
    monthlyIntake := jsRound monthlyIntake
    monthlyNet := jsRound (monthlyIntake - monthlyUsage)
    monthlyEfficiency := jsRound monthlyEfficiency
    monthlyAverageDaily := jsRound (monthlyUsage / (max 1 monthlyData.length : ℕ))
    yearlyUsage := jsRound yearlyUsage
    yearlyIntake := jsRound yearlyIntake
    yearlyNet := jsRound (yearlyIntake - yearlyUsage)
    yearlyEfficiency := jsRound yearlyEfficiency
    yearlyAverageDaily := jsRound (yearlyUsage / (max 1 yearlyData.length : ℕ))
    yearlyAverageMonthly := jsRound (yearlyUsage / 12) }

/-! ### Helper lemmas about the usage aggregator -/

theorem processRecord_date (rec : WaterUsageData) (w c l : ℚ) (p : Bool) (h : ℕ) :
    (processRecord rec w c l p h).date = rec.date := by
  simp only [processRecord]
  split_ifs <;> rfl

theorem processRecord_hourly_untouched (rec : WaterUsageData) (w c l : ℚ) (p : Bool) (h : ℕ)
    (hno : ¬ l - w > 1/2) :
    (processRecord rec w c l p h).hourlyUsage = rec.hourlyUsage
    ∧ (processRecord rec w c l p h).dailyUsage = rec.dailyUsage := by
  simp only [processRecord, hno, if_false]
  split_ifs <;> exact ⟨rfl, rfl⟩

theorem processRecord_intake (rec : WaterUsageData) (w c l : ℚ) (h : ℕ) :
    (processRecord rec w c l true h).dailyIntake = rec.dailyIntake + 2 * (5/100)
    ∧ (processRecord rec w c l true h).pumpRunTime = rec.pumpRunTime + 5/100 := by
  simp only [processRecord]
  split_ifs <;> exact ⟨rfl, rfl⟩

theorem find?_upsertRecord (l : List WaterUsageData) (rec : WaterUsageData) (today : String)
    (h : rec.date = today) :
    (upsertRecord l rec today).find? (fun d => d.date == today) = some rec := by
  induction l with
  | nil => simp [upsertRecord, List.find?, h]
  | cons d ds ih =>
    by_cases hd : d.date = today
    · simp [upsertRecord, hd, List.find?, h]
    · simp only [upsertRecord, hd, if_false]
      rw [List.find?_cons_of_neg _ (by simpa using hd)]
      exact ih

theorem todayRecord_date (s : UsageState) (today : String) :
    (todayRecord s today).date = today := by
  unfold todayRecord
  cases hf : s.usageData.find? (fun d => d.date == today) with
  | none => simp [defaultTodayRecord]
  | some r =>
    have := List.find?_some hf
    simpa using this

theorem todayRecord_addUsagePoint (s : UsageState) (w c : ℚ) (ps today : String) (h : ℕ) :
    todayRecord (addUsagePoint s w c ps today h) today
      = processRecord (todayRecord s today) w c (s.lastLevel.getD w) (ps = "ON") h := by
  unfold addUsagePoint
  unfold todayRecord
  rw [find?_upsertRecord]
  · rfl
  · rw [processRecord_date]
    exact todayRecord_date s today

/-! ### C2 — level-drop usage is capped at 50 L and dailyUsage is the bucket sum -/

/-- C2 (spec §4.3, §8; `usageService.ts` lines 111–119): when the observed
drop `L - w` exceeds the 0.5 noise threshold, the current hour's bucket grows
by exactly `min ((L - w)/100 * capacity) 50` — never more than 50 L — and
`dailyUsage` is recomputed as the sum of the 24 buckets. -/
theorem usage_capped_at_50 (s : UsageState) (w c L : ℚ) (ps today : String) (h : ℕ)
    (hlast : s.lastLevel = some L) (hδ : L - w > 1/2) (hh : h < 24)
    (hlen : (todayRecord s today).hourlyUsage.length = 24) :
    (todayRecord (addUsagePoint s w c ps today h) today).hourlyUsage.get? h
      = some ((todayRecord s today).hourlyUsage.getD h 0 + min ((L - w) / 100 * c) 50)
    ∧ min ((L - w) / 100 * c) 50 ≤ 50
    ∧ (todayRecord (addUsagePoint s w c ps today h) today).dailyUsage
      = (todayRecord (addUsagePoint s w c ps today h) today).hourlyUsage.sum := by
  rw [todayRecord_addUsagePoint, hlast]
  simp only [Option.getD_some]
  refine ⟨?_, min_le_right _ _, ?_⟩
  · simp only [processRecord, hδ, if_true]
    split_ifs <;>
      simpa using List.get?_set_eq_of_lt _ (by rw [hlen]; exact hh)
  · simp only [processRecord, hδ, if_true]
    split_ifs <;> rfl

theorem usage_capped_at_50_witness :
    (todayRecord (addUsagePoint ⟨[], some 60⟩ 55 10000 "OFF" "2025-06-01" 10) "2025-06-01").hourlyUsage.get? 10 = some 50
    ∧ (todayRecord (addUsagePoint ⟨[], some 60⟩ 55 10000 "OFF" "2025-06-01" 10) "2025-06-01").dailyUsage
      = (todayRecord (addUsagePoint ⟨[], some 60⟩ 55 10000 "OFF" "2025-06-01" 10) "2025-06-01").hourlyUsage.sum := by
  have h := usage_capped_at_50 ⟨[], some 60⟩ 55 10000 60 "OFF" "2025-06-01" 10 rfl
    (by norm_num) (by norm_num)
    (by simp [todayRecord, defaultTodayRecord])
  refine ⟨?_, h.2.2⟩
  rw [h.1]
  norm_num [todayRecord, defaultTodayRecord, List.getD]

/-! ### C3 — intake accrual is a fixed per-call constant, not interval-proportional -/

/-- C3 counterexample (spec §4.3 step 3; `usageService.ts` lines 121–127):
the claim says the intake accrued while the pump is `ON` is proportional to
the wall-clock interval since the previous ingestion, making the simulated
intake rate independent of call frequency. The code adds the fixed constant
`2 * 0.05 = 0.1` L and `0.05` min per call, with no dependence on elapsed
time: over one and the same polling window, one call accrues 0.1 L but two
calls accrue 0.2 L, so the simulated rate doubles with the call frequency. -/
theorem intake_not_interval_proportional :
    (todayRecord (addUsagePoint ⟨[], some 50⟩ 50 10000 "ON" "2025-06-01" 0) "2025-06-01").dailyIntake = 1/10
    ∧ (todayRecord (addUsagePoint (addUsagePoint ⟨[], some 50⟩ 50 10000 "ON" "2025-06-01" 0) 50 10000 "ON" "2025-06-01" 0) "2025-06-01").dailyIntake = 1/5
    ∧ ((1 : ℚ)/5) ≠ 1/10 := by
  refine ⟨?_, ?_, by norm_num⟩
  · norm_num [addUsagePoint, todayRecord, processRecord, upsertRecord, defaultTodayRecord]
  · norm_num [addUsagePoint, todayRecord, processRecord, upsertRecord, defaultTodayRecord]

/-- C3 amended (spec §4.3 step 3; `usageService.ts` lines 121–127): when the
pump state passed to `addUsagePoint` is `ON`, the call accrues the fixed
constants `2 * 0.05 = 0.1` L of intake and `0.05` min of run time — a
2 L/min-for-3-seconds model — independent of the actual interval since the
previous ingestion, so the simulated intake rate scales with call
frequency rather than being independent of it. -/
theorem intake_fixed_per_call (s : UsageState) (w c : ℚ) (ps today : String) (h : ℕ)
    (hOn : ps = "ON") :
    (todayRecord (addUsagePoint s w c ps today h) today).dailyIntake
      = (todayRecord s today).dailyIntake + 2 * (5/100)
    ∧ (todayRecord (addUsagePoint s w c ps today h) today).pumpRunTime
      = (todayRecord s today).pumpRunTime + 5/100 := by
  rw [todayRecord_addUsagePoint]
  subst hOn
  simpa using processRecord_intake (todayRecord s today) w c (s.lastLevel.getD w) h

theorem intake_fixed_per_call_witness :
    (todayRecord (addUsagePoint ⟨[], some 50⟩ 50 10000 "ON" "2025-06-02" 3) "2025-06-02").dailyIntake
      = (todayRecord ⟨[], some 50⟩ "2025-06-02").dailyIntake + 2 * (5/100)
    ∧ (todayRecord (addUsagePoint ⟨[], some 50⟩ 50 10000 "ON" "2025-06-02" 3) "2025-06-02").pumpRunTime
      = (todayRecord ⟨[], some 50⟩ "2025-06-02").pumpRunTime + 5/100 :=
  intake_fixed_per_call ⟨[], some 50⟩ 50 10000 "ON" "2025-06-02" 3 rfl

/-! ### C7 — efficiencyPercent never exceeds 95 -/

theorem jsRound_le_95 (x : ℚ) (h : x ≤ 95) : jsRound x ≤ 95 := by
  unfold jsRound
  by_contra hc
  push_neg at hc
  have h96 : (96 : ℤ) ≤ (x + 1/2).floor := by omega
  have h96q := Rat.le_floor.mp h96
  push_cast at h96q
  linarith

theorem list_sum_le_mul_length (l : List ℚ) (b : ℚ) (h : ∀ x ∈ l, x ≤ b) :
    l.sum ≤ b * l.length := by
  induction l with
  | nil => simp
  | cons a as ih =>
    simp only [List.sum_cons, List.length_cons]
    push_cast
    rw [mul_add, mul_one]
    have ha := h a (List.mem_cons_self a as)
    have has := ih (fun x hx => h x (List.mem_cons_of_mem a hx))
    linarith

theorem mean_le_95 (l : List ℚ) (h : ∀ x ∈ l, x ≤ 95) :
    (if 0 < l.length then l.sum / (l.length : ℚ) else 0) ≤ 95 := by
  split_ifs with hl
  · rw [div_le_iff (by exact_mod_cast hl)]
    have := list_sum_le_mul_length l 95 h
    linarith
  · norm_num

theorem processRecord_efficiency_le (rec : WaterUsageData) (w c l : ℚ) (p : Bool) (h : ℕ)
    (he : rec.efficiency ≤ 95) :
    (processRecord rec w c l p h).efficiency ≤ 95 := by
  simp only [processRecord]
  split_ifs <;> first
    | exact min_le_left _ _
    | exact he

theorem processRecord_efficiency_rule (rec : WaterUsageData) (w c l : ℚ) (p : Bool) (h : ℕ) :
    ((processRecord rec w c l p h).dailyUsage > 0 →
      (processRecord rec w c l p h).efficiency
        = min 95 ((jsRound ((processRecord rec w c l p h).dailyIntake
            / (processRecord rec w c l p h).dailyUsage * 100) : ℤ) : ℚ))
    ∧ (¬ (processRecord rec w c l p h).dailyUsage > 0 →
      (processRecord rec w c l p h).efficiency = rec.efficiency) := by
  simp only [processRecord]
  split_ifs <;> constructor <;> intro hn <;> first
    | rfl
    | (exfalso; linarith)

theorem mem_upsertRecord (l : List WaterUsageData) (rec : WaterUsageData) (today : String)
    (r : WaterUsageData) (hr : r ∈ upsertRecord l rec today) : r = rec ∨ r ∈ l := by
  induction l with
  | nil => simpa [upsertRecord] using hr
  | cons d ds ih =>
    by_cases hd : d.date = today
    · simp only [upsertRecord, hd, if_true] at hr
      rcases List.mem_cons.mp hr with h1 | h1
      · exact Or.inl h1
      · exact Or.inr (List.mem_cons_of_mem d h1)
    · simp only [upsertRecord, hd, if_false] at hr
      rcases List.mem_cons.mp hr with h1 | h1
      · exact Or.inr (h1 ▸ List.mem_cons_self d ds)
      · rcases ih h1 with h2 | h2
        · exact Or.inl h2
        · exact Or.inr (List.mem_cons_of_mem d h2)

theorem todayRecord_efficiency_le (s : UsageState) (today : String)
    (h95 : ∀ r ∈ s.usageData, r.efficiency ≤ 95) :
    (todayRecord s today).efficiency ≤ 95 := by
  unfold todayRecord
  cases hf : s.usageData.find? (fun d => d.date == today) with
  | none => norm_num [defaultTodayRecord]
  | some r =>
    simpa using h95 r (List.mem_of_find?_eq_some hf)

/-- C7 (spec §3 invariants, §4.3 step 4, §8; `usageService.ts` lines 129–132
and 141–191): after every ingestion all stored efficiencies are at most 95;
every efficiency reported by `getUsageSummary` (daily, monthly, yearly) is at
most 95; and the efficiency is recomputed as
`min 95 (round (intake / usage * 100))` exactly when `dailyUsage > 0`,
otherwise left unchanged. -/
theorem efficiency_capped_at_95 (s : UsageState) (w c : ℚ) (ps today m y : String) (hr : ℕ)
    (rec : WaterUsageData) (wl tc ll : ℚ) (pon : Bool) (hh : ℕ)
    (h95 : ∀ r ∈ s.usageData, r.efficiency ≤ 95) :
    (∀ r ∈ (addUsagePoint s w c ps today hr).usageData, r.efficiency ≤ 95)
    ∧ (getUsageSummary s today m y).dailyEfficiency ≤ 95
    ∧ (getUsageSummary s today m y).monthlyEfficiency ≤ 95
    ∧ (getUsageSummary s today m y).yearlyEfficiency ≤ 95
    ∧ ((processRecord rec wl tc ll pon hh).dailyUsage > 0 →
        (processRecord rec wl tc ll pon hh).efficiency
          = min 95 ((jsRound ((processRecord rec wl tc ll pon hh).dailyIntake
              / (processRecord rec wl tc ll pon hh).dailyUsage * 100) : ℤ) : ℚ))
    ∧ (¬ (processRecord rec wl tc ll pon hh).dailyUsage > 0 →
        (processRecord rec wl tc ll pon hh).efficiency = rec.efficiency) := by
  refine ⟨?_, ?_, ?_, ?_, (processRecord_efficiency_rule rec wl tc ll pon hh).1,
    (processRecord_efficiency_rule rec wl tc ll pon hh).2⟩
  · intro r hmem
    rcases mem_upsertRecord _ _ _ r hmem with h1 | h1
    · subst h1
      exact processRecord_efficiency_le _ _ _ _ _ _ (todayRecord_efficiency_le s today h95)
    · exact h95 r h1
  · simp only [getUsageSummary]
    cases hf : s.usageData.find? (fun d => d.date == today) with
    | none => simp [hf, jsRound, Rat.floor]
    | some r =>
      simp only [hf, Option.getD_some]
      exact jsRound_le_95 _ (h95 r (List.mem_of_find?_eq_some hf))
  · simp only [getUsageSummary]
    refine jsRound_le_95 _ ?_
    have hmem : ∀ x ∈ (s.usageData.filter (fun d => jsStartsWith d.date m)).map
        (fun d => d.efficiency), x ≤ 95 := by
      intro x hx
      rcases List.mem_map.mp hx with ⟨d, hd, hxd⟩
      exact hxd ▸ h95 d (List.mem_of_mem_filter hd)
    have := mean_le_95 _ hmem
    simpa [List.length_map] using this
  · simp only [getUsageSummary]
    refine jsRound_le_95 _ ?_
    have hmem : ∀ x ∈ (s.usageData.filter (fun d => jsStartsWith d.date y)).map
        (fun d => d.efficiency), x ≤ 95 := by
      intro x hx
      rcases List.mem_map.mp hx with ⟨d, hd, hxd⟩
      exact hxd ▸ h95 d (List.mem_of_mem_filter hd)
    have := mean_le_95 _ hmem
    simpa [List.length_map] using this

theorem efficiency_capped_at_95_witness :
    (∀ r ∈ (addUsagePoint ⟨[⟨"2025-06-01", 10, 3, List.replicate 24 0, 5, 80⟩], some 60⟩
        55 10000 "ON" "2025-06-01" 10).usageData, r.efficiency ≤ 95)
    ∧ (getUsageSummary ⟨[⟨"2025-06-01", 10, 3, List.replicate 24 0, 5, 80⟩], some 60⟩
        "2025-06-01" "2025-06" "2025").dailyEfficiency ≤ 95
    ∧ (getUsageSummary ⟨[⟨"2025-06-01", 10, 3, List.replicate 24 0, 5, 80⟩], some 60⟩
        "2025-06-01" "2025-06" "2025").monthlyEfficiency ≤ 95
    ∧ (getUsageSummary ⟨[⟨"2025-06-01", 10, 3, List.replicate 24 0, 5, 80⟩], some 60⟩
        "2025-06-01" "2025-06" "2025").yearlyEfficiency ≤ 95
    ∧ ((processRecord ⟨"2025-06-01", 0, 0, List.replicate 24 0, 0, 90⟩ 55 10000 60 true 10).dailyUsage > 0 →
        (processRecord ⟨"2025-06-01", 0, 0, List.replicate 24 0, 0, 90⟩ 55 10000 60 true 10).efficiency
          = min 95 ((jsRound ((processRecord ⟨"2025-06-01", 0, 0, List.replicate 24 0, 0, 90⟩ 55 10000 60 true 10).dailyIntake
              / (processRecord ⟨"2025-06-01", 0, 0, List.replicate 24 0, 0, 90⟩ 55 10000 60 true 10).dailyUsage * 100) : ℤ) : ℚ))
    ∧ (¬ (processRecord ⟨"2025-06-01", 0, 0, List.replicate 24 0, 0, 90⟩ 55 10000 60 true 10).dailyUsage > 0 →
        (processRecord ⟨"2025-06-01", 0, 0, List.replicate 24 0, 0, 90⟩ 55 10000 60 true 10).efficiency
          = (⟨"2025-06-01", 0, 0, List.replicate 24 0, 0, 90⟩ : WaterUsageData).efficiency) :=
  efficiency_capped_at_95 ⟨[⟨"2025-06-01", 10, 3, List.replicate 24 0, 5, 80⟩], some 60⟩
    55 10000 "ON" "2025-06-01" "2025-06" "2025" 10
    ⟨"2025-06-01", 0, 0, List.replicate 24 0, 0, 90⟩ 55 10000 60 true 10
    (by intro r hmem; simp at hmem; subst hmem; norm_num)

/-! ### C4 / C9 — downsampling -/

theorem strideIndices_eq_map (s : ℕ) (hs : 0 < s) :
    ∀ n, strideIndices n s = (List.range ((n + s - 1) / s)).map (fun j => j * s) := by
  intro n
  induction n with
  | zero =>
    have h0 : (s - 1) / s = 0 := Nat.div_eq_of_lt (by omega)
    simp [strideIndices, h0]
  | succ n ih =>
    unfold strideIndices at ih ⊢
    rw [List.range_succ, List.filter_append]
    have hmod : s * (n / s) + n % s = n := Nat.div_add_mod n s
    have hmul : s * (n / s + 1) = s * (n / s) + s := by ring
    by_cases hd : n % s = 0
    · have hdvd : s ∣ n := Nat.dvd_of_mod_eq_zero hd
      have h1 : (n + 1 + s - 1) / s = n / s + 1 := by
        have he : n + 1 + s - 1 = s * (n / s + 1) + 0 := by omega
        rw [he, Nat.mul_add_div hs]
        simp
      have h2 : (n + s - 1) / s = n / s := by
        rcases Nat.eq_zero_or_pos n with hn0 | hn0
        · subst hn0
          simp [Nat.div_eq_of_lt (show s - 1 < s by omega)]
        · have hq1 : 1 ≤ s * (n / s) := by omega
          have he : n + s - 1 = s * (n / s) + (s - 1) := by omega
          rw [he, Nat.mul_add_div hs, Nat.div_eq_of_lt (show s - 1 < s by omega)]
          simp
      rw [ih, h1, h2, List.range_succ, List.map_append]
      have hnq : n / s * s = n := Nat.div_mul_cancel hdvd
      simp [hd, hnq]
    · have hrpos : 0 < n % s := Nat.pos_of_ne_zero hd
      have hrlt : n % s < s := Nat.mod_lt n hs
      have h1 : (n + 1 + s - 1) / s = n / s + 1 := by
        have he : n + 1 + s - 1 = s * (n / s + 1) + n % s := by omega
        rw [he, Nat.mul_add_div hs, Nat.div_eq_of_lt hrlt]
      have h2 : (n + s - 1) / s = n / s + 1 := by
        have he : n + s - 1 = s * (n / s + 1) + (n % s - 1) := by omega
        rw [he, Nat.mul_add_div hs, Nat.div_eq_of_lt (show n % s - 1 < s by omega)]
      rw [ih, h1, h2]
      simp [hd]

theorem getLast?_strideIndices (n s : ℕ) (hs : 0 < s) (hn : 0 < n) :
    (strideIndices n s).getLast? = some (((n + s - 1) / s - 1) * s) := by
  rw [strideIndices_eq_map s hs n]
  have hm : 1 ≤ (n + s - 1) / s := (Nat.one_le_div_iff hs).mpr (by omega)
  have : (n + s - 1) / s = ((n + s - 1) / s - 1) + 1 := by omega
  rw [this, List.range_succ, List.map_append]
  exact List.getLast?_concat _

theorem getLast?_strideIndices_iff (n s : ℕ) (hs : 0 < s) (hn : 0 < n) :
    (strideIndices n s).getLast? = some (n - 1) ↔ (n - 1) % s = 0 := by
  rw [getLast?_strideIndices n s hs hn]
  constructor
  · intro h
    have := Option.some.inj h
    rw [← this]
    exact Nat.mul_mod_left _ _
  · intro h
    have hdvd : s ∣ n - 1 := Nat.dvd_of_mod_eq_zero h
    have hq : s * ((n - 1) / s) = n - 1 := Nat.mul_div_cancel' hdvd
    have hmul : s * ((n - 1) / s + 1) = s * ((n - 1) / s) + s := by ring
    have hm : (n + s - 1) / s = (n - 1) / s + 1 := by
      have he : n + s - 1 = s * ((n - 1) / s + 1) + 0 := by omega
      rw [he, Nat.mul_add_div hs]
      simp
    rw [hm]
    simp
    exact Nat.div_mul_cancel hdvd

/-- C4 (spec §4.1, §6; `thingspeakService.ts` lines 380–401): the claim —
and the call-site comment `// 24 points max for chart`, as well as the
parameter name `maxPoints` — say the downsampled series has at most 24
points, but `sampleData` on a 25-element series computes stride
`floor(25/24) = 1` and returns all 25 elements. -/
theorem sampleData_exceeds_display_budget :
    sampleData (List.range 25) 24 = List.range 25
    ∧ 24 < (sampleData (List.range 25) 24).length := by
  constructor <;> decide

/-- C9 (spec §4.1, §8; `thingspeakService.ts` lines 380–401): downsampling is
a pure function of the input series (determinism is inherent in the
functional embedding); the final (most recent) input element is always
present in the output; and when the length `N` exceeds the 24-point budget
the output is exactly the elements at indices `0, s, 2s, …` for
`s = floor(N/24)` with the final index force-appended when the stride
dropped it (`claimedSampleIndices`, stated in the specification's words). -/
theorem sampleData_stride_and_last {α : Type} (data : List α) (hne : data ≠ []) :
    data.getLast hne ∈ sampleData data 24
    ∧ (24 < data.length → sampleData data 24
        = (claimedSampleIndices data.length 24).filterMap (fun i => data.get? i)) := by
  have hn : 0 < data.length := List.length_pos.mpr hne
  constructor
  · unfold sampleData
    by_cases hle : data.length ≤ 24
    · simp only [hle, if_true]
      exact List.getLast_mem hne
    · simp only [hle, if_false]
      have hget : data.get? (data.length - 1) = some (data.getLast hne) := by
        rw [List.get?_eq_getElem?, ← List.getLast?_eq_getElem?]
        exact List.getLast?_eq_getLast data hne
      refine List.mem_filterMap.mpr ⟨data.length - 1, ?_, hget⟩
      by_cases hl : (strideIndices data.length (data.length / 24)).getLast?
          = some (data.length - 1)
      · simp only [hl, if_true]
        have := List.getLast?_eq_getElem? (strideIndices data.length (data.length / 24))
        rw [this] at hl
        exact List.getElem?_mem hl
      · simp only [hl, if_false]
        exact List.mem_append_right _ (List.mem_singleton.mpr rfl)
  · intro hgt
    have hs : 0 < data.length / 24 := (Nat.one_le_div_iff (by norm_num)).mpr (le_of_lt hgt)
    unfold sampleData claimedSampleIndices
    simp only [not_le.mpr hgt, if_false]
    rw [strideIndices_eq_map _ hs]
    by_cases hmod : (data.length - 1) % (data.length / 24) = 0
    · rw [if_pos, if_pos hmod]
      rw [← strideIndices_eq_map _ hs]
      exact (getLast?_strideIndices_iff data.length (data.length / 24) hs hn).mpr hmod
    · rw [if_neg, if_neg hmod]
      rw [← strideIndices_eq_map _ hs]
      intro hcon
      exact hmod ((getLast?_strideIndices_iff data.length (data.length / 24) hs hn).mp hcon)

theorem sampleData_stride_and_last_witness :
    (List.range 30).getLast (by decide) ∈ sampleData (List.range 30) 24
    ∧ (24 < (List.range 30).length → sampleData (List.range 30) 24
        = (claimedSampleIndices (List.range 30).length 24).filterMap
            (fun i => (List.range 30).get? i)) :=
  sampleData_stride_and_last (List.range 30) (by decide)

/-! ### Helper lemmas about the telemetry client -/

theorem fetchFromNetwork_fail (cache : TSCache) (now : ℤ) (net : NetOutcome) (nowIso : String)
    (entryMs : ℤ) (h : netFails net) :
    fetchFromNetwork cache now net nowIso entryMs = ⟨getFallbackData nowIso, cache, true⟩ := by
  cases net with
  | throws => rfl
  | ok feeds =>
    cases feeds with
    | none => rfl
    | some l =>
      cases l with
      | nil => rfl
      | cons e rest => exact absurd h (by simp [netFails])

theorem fetchFromNetwork_networkCalled (cache : TSCache) (now : ℤ) (net : NetOutcome)
    (nowIso : String) (entryMs : ℤ) :
    (fetchFromNetwork cache now net nowIso entryMs).networkCalled = true := by
  cases net with
  | throws => rfl
  | ok feeds =>
    cases feeds with
    | none => rfl
    | some l =>
      cases l with
      | nil => rfl
      | cons e rest => rfl

theorem getCurrentWaterLevel_stale (cache : TSCache) (now : ℤ) (net : NetOutcome)
    (iso : String) (ems : ℤ) (h : cacheFresh cache now = false) :
    getCurrentWaterLevel cache now net iso ems = fetchFromNetwork cache now net iso ems := by
  unfold getCurrentWaterLevel
  cases hd : cache.data with
  | none => rfl
  | some d =>
    have hlt : ¬ (now - cache.timestamp < 30000) := by
      unfold cacheFresh at h
      rw [hd] at h
      simpa using h
    simp [hlt]

/-! ### C5 — failure sentinel and the malformed-primary-field path -/

/-- C5 amended (spec §4.1, §7; `thingspeakService.ts` lines 176–222 and
355–363): `getCurrentWaterLevel` never raises (the embedding is total), and
when every transport fails or the response carries no entries it returns the
zero-level `"Connection Error"` sentinel. A malformed (non-numeric) primary
level field, however, is not replaced by the sentinel: the entry is processed
into an ordinary reading whose level is `NaN` (`none`). -/
theorem fetchLatest_failure_sentinel (cache : TSCache) (now : ℤ) (net : NetOutcome)
    (iso : String) (ems : ℤ) (e : ThingSpeakEntry) (rest : List ThingSpeakEntry)
    (hstale : cacheFresh cache now = false) :
    (netFails net → (getCurrentWaterLevel cache now net iso ems).reading = getFallbackData iso)
    ∧ (truthy e.field1 = true → parseFloat (e.field1.getD "") = none →
        (getCurrentWaterLevel cache now (.ok (some (e :: rest))) iso ems).reading.waterLevel = none
        ∧ (getCurrentWaterLevel cache now (.ok (some (e :: rest))) iso ems).reading
            ≠ getFallbackData iso) := by
  constructor
  · intro hf
    rw [getCurrentWaterLevel_stale cache now net iso ems hstale,
      fetchFromNetwork_fail cache now net iso ems hf]
  · intro ht hpf
    rw [getCurrentWaterLevel_stale cache now _ iso ems hstale]
    have hw : (fetchFromNetwork cache now (.ok (some (e :: rest))) iso ems).reading.waterLevel
        = none := by
      simp [fetchFromNetwork, processThingSpeakData, ht, hpf, jsMin, jsMax]
    refine ⟨hw, ?_⟩
    intro heq
    rw [heq] at hw
    simp [getFallbackData] at hw

theorem fetchLatest_failure_sentinel_witness :
    (getCurrentWaterLevel ⟨none, 0, [], 0⟩ 0 .throws "2025-06-01T00:00:10Z" 0).reading
      = getFallbackData "2025-06-01T00:00:10Z"
    ∧ (getCurrentWaterLevel ⟨none, 0, [], 0⟩ 0
        (.ok (some [⟨"2025-06-01T00:00:00Z", some "err", none, none, none, none, none, none⟩]))
        "2025-06-01T00:00:10Z" 0).reading.waterLevel = none := by
  have h := fetchLatest_failure_sentinel ⟨none, 0, [], 0⟩ 0 .throws "2025-06-01T00:00:10Z" 0
    ⟨"2025-06-01T00:00:00Z", some "err", none, none, none, none, none, none⟩ [] (by decide)
  exact ⟨h.1 trivial, (h.2 (by decide) (by decide)).1⟩

/-- C5 counterexample (the claim as stated): with a well-formed payload whose
single entry has the non-numeric primary field `"N/A"`, the returned reading
is not the `"Connection Error"` sentinel — the claim's malformed-field case
does not fall back; the reading carries `NaN` (`none`) as its level. -/
theorem fetchLatest_malformed_not_sentinel :
    (getCurrentWaterLevel ⟨none, 0, [], 0⟩ 0
        (.ok (some [⟨"2025-06-01T00:00:00Z", some "N/A", none, none, none, none, none, none⟩]))
        "2025-06-01T00:00:10Z" 0).reading
      ≠ getFallbackData "2025-06-01T00:00:10Z"
    ∧ (getCurrentWaterLevel ⟨none, 0, [], 0⟩ 0
        (.ok (some [⟨"2025-06-01T00:00:00Z", some "N/A", none, none, none, none, none, none⟩]))
        "2025-06-01T00:00:10Z" 0).reading.waterLevel = none := by
  have hp : parseFloat "N/A" = none := by decide
  have htr : truthy (some "N/A") = true := by decide
  have hw : (getCurrentWaterLevel ⟨none, 0, [], 0⟩ 0
      (.ok (some [⟨"2025-06-01T00:00:00Z", some "N/A", none, none, none, none, none, none⟩]))
      "2025-06-01T00:00:10Z" 0).reading.waterLevel = none := by
    simp [getCurrentWaterLevel, fetchFromNetwork, processThingSpeakData, htr, hp, jsMin, jsMax]
  refine ⟨?_, hw⟩
  intro heq
  rw [heq] at hw
  simp [getFallbackData] at hw

/-! ### C8 — clamping of the primary level field -/

/-- C8 amended (spec §4.1, §8; `thingspeakService.ts` lines 304–350): for
every primary field that is absent/empty or parses to a number, the produced
`waterLevel` is a number clamped into [0, 100]; a present but non-numeric
primary field, however, produces `NaN` (`none`), which the clamp does not
repair (see the counterexample). -/
theorem levelPercent_clamped (entry : ThingSpeakEntry) (nowMs entryMs : ℤ)
    (hok : truthy entry.field1 = false ∨ ∃ v, parseFloat (entry.field1.getD "") = some v) :
    ∃ q, (processThingSpeakData entry nowMs entryMs).waterLevel = some q
      ∧ 0 ≤ q ∧ q ≤ 100 := by
  unfold processThingSpeakData
  by_cases ht : truthy entry.field1
  · rcases hok with hf | ⟨v, hv⟩
    · exact absurd ht (by simp [hf])
    · refine ⟨max 0 (min 100 ((jsRound v : ℤ) : ℚ)), ?_, le_max_left 0 _, ?_⟩
      · simp [ht, hv, jsMin, jsMax]
      · exact max_le (by norm_num) (min_le_left _ _)
  · refine ⟨0, ?_, le_refl 0, by norm_num⟩
    simp only [ht, Bool.false_eq_true, if_false, jsMin, jsMax]
    norm_num

/-- C8 counterexample (the claim as stated): the primary field `"abc"` is
non-numeric, `parseFloat` yields `NaN`, and `Math.max(0, Math.min(100, NaN))`
is `NaN` — the produced level is not a number in [0, 100] at all. -/
theorem levelPercent_not_clamped_on_nan :
    ¬ ∃ q, (processThingSpeakData ⟨"2025-06-01T00:00:00Z", some "abc",
        none, none, none, none, none, none⟩ 0 0).waterLevel = some q
      ∧ 0 ≤ q ∧ q ≤ 100 := by
  have hp : parseFloat "abc" = none := by decide
  have htr : truthy (some "abc") = true := by decide
  have hw : (processThingSpeakData ⟨"2025-06-01T00:00:00Z", some "abc",
      none, none, none, none, none, none⟩ 0 0).waterLevel = none := by
    simp [processThingSpeakData, htr, hp, jsMin, jsMax]
  rintro ⟨q, hq, _, _⟩
  rw [hw] at hq
  exact Option.noConfusion hq

theorem levelPercent_clamped_witness :
    ∃ q, (processThingSpeakData ⟨"2025-06-01T00:00:00Z", some "150",
        none, none, none, none, none, none⟩ 0 0).waterLevel = some q
      ∧ 0 ≤ q ∧ q ≤ 100 := by
  have hp : parseFloat "150" = some 150 := by
    simp +decide [parseFloat, digitsVal]
  exact levelPercent_clamped _ 0 0 (Or.inr ⟨150, hp⟩)

/-! ### C6 — 30-second cache for the latest reading -/

/-- C6 amended (spec §4.1, §8; `thingspeakService.ts` lines 176–222): a fresh
cached reading (`now - fetchedAt < 30 s`) is returned unchanged with no
network call; consequently when a call performs a successful network fetch,
any second call within 30 s of it is a cache hit returning the same reading
with no network call. (After a failed fetch the cache is not written, so the
next call does retry the network — see the counterexample.) -/
theorem cache_hit_within_30s (cache : TSCache) (d : WaterLevelData) (t1 t2 : ℤ)
    (net1 net2 : NetOutcome) (iso1 iso2 : String) (ems1 ems2 : ℤ)
    (e : ThingSpeakEntry) (rest : List ThingSpeakEntry) :
    (cache.data = some d → t1 - cache.timestamp < 30000 →
      getCurrentWaterLevel cache t1 net1 iso1 ems1 = ⟨d, cache, false⟩)
    ∧ ((getCurrentWaterLevel cache t1 (.ok (some (e :: rest))) iso1 ems1).networkCalled = true →
      t2 - t1 < 30000 →
      (getCurrentWaterLevel (getCurrentWaterLevel cache t1 (.ok (some (e :: rest))) iso1 ems1).cache
          t2 net2 iso2 ems2).networkCalled = false
      ∧ (getCurrentWaterLevel (getCurrentWaterLevel cache t1 (.ok (some (e :: rest))) iso1 ems1).cache
          t2 net2 iso2 ems2).reading
        = (getCurrentWaterLevel cache t1 (.ok (some (e :: rest))) iso1 ems1).reading) := by
  constructor
  · intro hd h30
    unfold getCurrentWaterLevel
    rw [hd]
    simp [h30]
  · intro hnet h30
    have hr1 : getCurrentWaterLevel cache t1 (.ok (some (e :: rest))) iso1 ems1
        = fetchFromNetwork cache t1 (.ok (some (e :: rest))) iso1 ems1 := by
      cases hd : cache.data with
      | none =>
        unfold getCurrentWaterLevel
        rw [hd]
      | some d0 =>
        by_cases hf : t1 - cache.timestamp < 30000
        · exfalso
          unfold getCurrentWaterLevel at hnet
          rw [hd] at hnet
          simp [hf] at hnet
        · unfold getCurrentWaterLevel
          rw [hd]
          simp [hf]
    rw [hr1]
    simp [fetchFromNetwork, getCurrentWaterLevel, h30]

theorem cache_hit_within_30s_witness :
    (getCurrentWaterLevel ⟨some (getFallbackData "t0"), 100, [], 0⟩ 5000 .throws "t1" 0
      = ⟨getFallbackData "t0", ⟨some (getFallbackData "t0"), 100, [], 0⟩, false⟩)
    ∧ ((getCurrentWaterLevel
          (getCurrentWaterLevel ⟨none, 0, [], 0⟩ 40000
            (.ok (some [⟨"2025-06-01T00:00:00Z", some "55", none, none, none, none, none, none⟩]))
            "t1" 0).cache
          41000 .throws "t2" 0).networkCalled = false
      ∧ (getCurrentWaterLevel
          (getCurrentWaterLevel ⟨none, 0, [], 0⟩ 40000
            (.ok (some [⟨"2025-06-01T00:00:00Z", some "55", none, none, none, none, none, none⟩]))
            "t1" 0).cache
          41000 .throws "t2" 0).reading
        = (getCurrentWaterLevel ⟨none, 0, [], 0⟩ 40000
            (.ok (some [⟨"2025-06-01T00:00:00Z", some "55", none, none, none, none, none, none⟩]))
            "t1" 0).reading) := by
  constructor
  · exact (cache_hit_within_30s ⟨some (getFallbackData "t0"), 100, [], 0⟩ (getFallbackData "t0")
      5000 41000 .throws .throws "t1" "t2" 0 0
      ⟨"2025-06-01T00:00:00Z", some "55", none, none, none, none, none, none⟩ []).1
      rfl (by decide)
  · exact (cache_hit_within_30s ⟨none, 0, [], 0⟩ (getFallbackData "t0")
      40000 41000 .throws .throws "t1" "t2" 0 0
      ⟨"2025-06-01T00:00:00Z", some "55", none, none, none, none, none, none⟩ []).2
      rfl (by decide)

/-- C6 counterexample (the claim as stated): with an empty cache and a
network that fails, two `getCurrentWaterLevel` calls one second apart each
issue a network call — the claim's "at most one network call, the second a
cache hit" does not hold when the first call fails, because the sentinel is
never cached. -/
theorem two_failed_calls_issue_two_network_calls :
    (getCurrentWaterLevel ⟨none, 0, [], 0⟩ 0 .throws "e1" 0).networkCalled = true
    ∧ (getCurrentWaterLevel (getCurrentWaterLevel ⟨none, 0, [], 0⟩ 0 .throws "e1" 0).cache
        1000 .throws "e2" 0).networkCalled = true := by
  exact ⟨rfl, rfl⟩

/-! ### C10 — a failed fetch leaves the cache untouched and is retried -/

/-- C10 (implicit; `thingspeakService.ts` lines 196–221 and 355–363): when a
non-fresh call fails (transport exception, null payload, or an empty feed
list), the `"Connection Error"` sentinel is returned without writing the
cache — the cache state is exactly what it was — and a subsequent call at any
later time still attempts the network instead of serving the sentinel as a
cache hit. -/
theorem failure_not_cached (cache : TSCache) (t1 t2 : ℤ) (net net2 : NetOutcome)
    (iso1 iso2 : String) (ems1 ems2 : ℤ)
    (hfail : netFails net) (hstale : cacheFresh cache t1 = false) (ht : t1 ≤ t2) :
    (getCurrentWaterLevel cache t1 net iso1 ems1).cache = cache
    ∧ (getCurrentWaterLevel cache t1 net iso1 ems1).reading = getFallbackData iso1
    ∧ (getCurrentWaterLevel cache t1 net iso1 ems1).networkCalled = true
    ∧ (getCurrentWaterLevel (getCurrentWaterLevel cache t1 net iso1 ems1).cache
        t2 net2 iso2 ems2).networkCalled = true := by
  have h1 := getCurrentWaterLevel_stale cache t1 net iso1 ems1 hstale
  rw [h1, fetchFromNetwork_fail cache t1 net iso1 ems1 hfail]
  refine ⟨rfl, rfl, rfl, ?_⟩
  have hstale2 : cacheFresh cache t2 = false := by
    unfold cacheFresh at hstale ⊢
    cases hd : cache.data with
    | none => simp
    | some d0 =>
      rw [hd] at hstale
      simp only [Option.isSome_some, Bool.true_and, decide_eq_false_iff_not] at hstale ⊢
      omega
  rw [getCurrentWaterLevel_stale cache t2 net2 iso2 ems2 hstale2]
  exact fetchFromNetwork_networkCalled cache t2 net2 iso2 ems2

theorem failure_not_cached_witness :
    (getCurrentWaterLevel ⟨none, 0, [], 0⟩ 0 (.ok (some [])) "e1" 0).cache = ⟨none, 0, [], 0⟩
    ∧ (getCurrentWaterLevel ⟨none, 0, [], 0⟩ 0 (.ok (some [])) "e1" 0).reading
      = getFallbackData "e1"
    ∧ (getCurrentWaterLevel ⟨none, 0, [], 0⟩ 0 (.ok (some [])) "e1" 0).networkCalled = true
    ∧ (getCurrentWaterLevel (getCurrentWaterLevel ⟨none, 0, [], 0⟩ 0 (.ok (some [])) "e1" 0).cache
        10 .throws "e2" 0).networkCalled = true :=
  failure_not_cached ⟨none, 0, [], 0⟩ 0 10 (.ok (some [])) .throws "e1" "e2" 0 0
    (by decide) (by decide) (by decide)

end WaterMonitor
